import Mathlib

/-!
Verification development for the AI trend research pipeline.

Shallow embedding of the keyword store (`keyword_manager.py`), the scorer and
keyword parser (`data_processor.py`, duplicated in `ai_trend_researcher.py`),
the MCP tool-call layer (`mcp_client_manager.py` / `ai_trend_researcher.py`),
the research loop of `AITrendResearcher.run_daily_research`, and the report
fan-out of `report_generator.py`.  Python dicts are modelled as ordered
association lists (insertion order preserved, updates in place), file-backed
state as explicit values threaded through the operations, `datetime.now()`
as an explicit `today` argument, and fallible external calls as `Except`
valued oracles.
-/

namespace AITrend

/-- Python `str.lower()` restricted to the ASCII fragment used by the code:
each character is lowered individually. -/
def pyLower (s : String) : String :=
  String.mk (s.data.map Char.toLower)

/-- Check that the first list is a leading segment of the second
(character-level helper for Python's substring test). -/
def chStarts : List Char → List Char → Bool
  | [], _ => true
  | _ :: _, [] => false
  | a :: as, b :: bs => a == b && chStarts as bs

/-- Character-level substring occurrence. -/
def chOccurs (needle : List Char) : List Char → Bool
  | [] => chStarts needle []
  | b :: bs => chStarts needle (b :: bs) || chOccurs needle bs

/-- Python's `needle in hay` on strings. -/
def pyInStr (needle hay : String) : Bool :=
  chOccurs needle.data hay.data

/-- Whitespace characters removed by Python's `str.strip()` (ASCII fragment). -/
def isPySpace (c : Char) : Bool :=
  c == ' ' || c == '\t' || c == '\n' || c == '\r' || c == '\x0b' || c == '\x0c'

/-- Python `str.strip()`. -/
def pyStrip (s : String) : String :=
  String.mk (((s.data.dropWhile isPySpace).reverse.dropWhile isPySpace).reverse)

/-- Lookup in an ordered association list (Python `d[k]` / `k in d`). -/
def dget {V : Type} (d : List (String × V)) (k : String) : Option V :=
  match d with
  | [] => none
  | (k', v) :: rest => if k' = k then some v else dget rest k

/-- Update-or-append in an ordered association list: Python `d[k] = v`
(an existing key keeps its position, a new key is appended). -/
def dset {V : Type} (d : List (String × V)) (k : String) (v : V) : List (String × V) :=
  match d with
  | [] => [(k, v)]
  | (k', v') :: rest => if k' = k then (k, v) :: rest else (k', v') :: dset rest k v

/-- Record stored for one term in `keywords/master.json`
(`KeywordManager.add_new_keyword` creates it; `discovered_from` is only
present when the argument was truthy, modelled by `Option`). -/
structure KeywordRecord where
  score : Int
  last_used : Option String
  source : String
  created_date : String
  discovered_from : Option String
deriving DecidableEq, Repr

/-- Master keyword registry: the JSON object in `keywords/master.json`. -/
abbrev Registry := List (String × KeywordRecord)

/-- Python truthiness of the optional `discovered_from` argument
(`if discovered_from:`): present and non-empty. -/
def optStrTruthy : Option String → Bool
  | none => false
  | some s => !(s == "")

/-- `KeywordManager.add_new_keyword(keyword, score, source, discovered_from)`:
insert a fresh record when the term is absent and report whether it was
inserted; an existing term is left untouched and `False` returned.  The
registry value returned is the persisted state (`save_master_keywords` is
only called on insertion, so the file content equals the returned list in
both cases). -/
def addNewKeyword (today : String) (m : Registry) (keyword : String) (score : Int)
    (source : String) (discovered_from : Option String) : Bool × Registry :=
  match dget m keyword with
  | some _ => (false, m)
  | none =>
    let base : KeywordRecord :=
      { score := score, last_used := none, source := source,
        created_date := today, discovered_from := none }
    let rcd := if optStrTruthy discovered_from
      then { base with discovered_from := discovered_from } else base
    (true, m ++ [(keyword, rcd)])

/-- `KeywordManager.update_keyword_score(keyword, new_score)`: store the given
score as-is when the term exists (the code applies no clamping). -/
def updateKeywordScore (m : Registry) (keyword : String) (new_score : Int) : Bool × Registry :=
  match dget m keyword with
  | some _ =>
    (true, m.map (fun p => if p.1 = keyword then (p.1, { p.2 with score := new_score }) else p))
  | none => (false, m)

/-- One step of `KeywordManager.mark_keywords_used`: set `last_used` of the
given term to today when the term is present, otherwise leave the registry
unchanged (`if keyword in master`). -/
def setLastUsed (today t : String) : Registry → Registry
  | [] => []
  | (k, r) :: rest =>
    if k = t then (k, { r with last_used := some today }) :: rest
    else (k, r) :: setLastUsed today t rest

/-- `KeywordManager.mark_keywords_used(keywords)`: set `last_used := today`
for every listed term that exists in the registry. -/
def markKeywordsUsed (today : String) (keywords : List String) (m : Registry) : Registry :=
  keywords.foldl (fun acc t => setLastUsed today t acc) m

/-- Number of research entries mentioning a keyword in
`DataAnalyzer.score_keywords` (`ai_trend_researcher.py` has the identical
copy): `sum(1 for data in research_data if keyword.lower() in str(data).lower())`.
Each entry of `research_data` enters the scorer only through its `str(...)`
serialization, so the embedding takes the list of serialized forms. -/
def countMentions (keyword : String) (researchSerialized : List String) : Nat :=
  researchSerialized.countP (fun s => pyInStr (pyLower keyword) (pyLower s))

/-- `DataAnalyzer.score_keywords(keywords, research_data)`: base score 50 plus
5 per mentioning entry, capped at 100, collected into a dict keyed by term. -/
def scoreKeywords (keywords : List String) (researchSerialized : List String) :
    List (String × Int) :=
  keywords.foldl
    (fun scores keyword =>
      dset scores keyword (min 100 (50 + 5 * (countMentions keyword researchSerialized : Int))))
    []

/-- Score-and-persist step of `AITrendResearcher.run_daily_research`
(lines 832-839): every scored keyword is fed to
`add_new_keyword(keyword, score, "discovered", "daily_research")`. -/
def applyScoredKeywords (today : String) (m : Registry) (scores : List (String × Int)) :
    Registry :=
  scores.foldl (fun acc p => (addNewKeyword today acc p.1 p.2 "discovered" (some "daily_research")).2) m

/-- Comparison used by `KeywordManager.get_top_keywords`:
`sorted(master.items(), key=lambda x: x[1]["score"], reverse=True)` places `a`
before `b` exactly when `a`'s score is at least `b`'s. -/
def byScoreDesc (a b : String × KeywordRecord) : Prop :=
  b.2.score ≤ a.2.score

instance : DecidableRel byScoreDesc :=
  fun a b => inferInstanceAs (Decidable (b.2.score ≤ a.2.score))

instance : IsTotal (String × KeywordRecord) byScoreDesc :=
  ⟨fun a b => le_total b.2.score a.2.score⟩

instance : IsTrans (String × KeywordRecord) byScoreDesc :=
  ⟨fun _ _ _ h1 h2 => le_trans h2 h1⟩

/-- Python's `sorted(master.items(), key=lambda x: x[1]["score"], reverse=True)`:
a stable sort placing higher scores first, ties kept in registry iteration
order.  Stable sorts under a fixed total preorder agree on every input, so
insertion sort computes the same list as CPython's timsort. -/
def sortedByScoreDesc (m : Registry) : Registry :=
  m.insertionSort byScoreDesc

/-- `KeywordManager.get_top_keywords(limit)`: terms of the first `limit`
entries of the descending-score ordering. -/
def getTopKeywords (m : Registry) (limit : Nat) : List String :=
  ((sortedByScoreDesc m).take limit).map (·.1)

/-- File-backed state of the Keyword Store (`keywords/master.json` and
`keywords/active.json`). -/
structure StoreState where
  master : Registry
  active : List String
deriving Repr

/-- `KeywordManager.refresh_active_keywords(limit)`: recompute the top
keywords, persist them as the active set (`save_active_keywords`), and
return them. -/
def refreshActiveKeywords (st : StoreState) (limit : Nat) : List String × StoreState :=
  let top := getTopKeywords st.master limit
  (top, { st with active := top })

/-- Sample master registry used for concrete evaluations. -/
def demoReg : Registry :=
  [("ai", { score := 50, last_used := none, source := "seed",
            created_date := "2026-01-01", discovered_from := none })]

/-- Sample store with a score tie between `"rag"` and `"llm"` (registry order
puts `"rag"` first) used to instantiate the C6 theorem. -/
def demoStore : StoreState :=
  { master :=
      [("rag", { score := 70, last_used := none, source := "seed",
                 created_date := "2026-01-01", discovered_from := none }),
       ("ai", { score := 90, last_used := none, source := "seed",
                created_date := "2026-01-01", discovered_from := none }),
       ("llm", { score := 70, last_used := none, source := "seed",
                 created_date := "2026-01-01", discovered_from := none })],
    active := [] }

/-- Scan to the first `']'` inclusive; `none` when there is none.  Models the
non-greedy tail of the regex `\[.*?\]` (with DOTALL every character counts). -/
def takeUpToRB : List Char → Option (List Char)
  | [] => none
  | c :: cs => if c = ']' then some [c] else (takeUpToRB cs).map (fun r => c :: r)

/-- First match of `re.search(r'\[.*?\]', response, re.DOTALL)`: the segment
from the first `'['` to the first `']'` after it, brackets included. -/
def firstBracketSeg (s : String) : Option String :=
  match s.data.dropWhile (fun c => !(c == '[')) with
  | '[' :: rest => (takeUpToRB rest).map (fun seg => String.mk ('[' :: seg))
  | _ => none

/-- JSON value inside a decoded array: a string, or any non-string scalar
(numbers and the `true` / `false` / `null` literals); the Python code keeps
only `isinstance(k, str)` elements. -/
inductive JVal where
  | jstr (s : String)
  | jother (s : String)
deriving DecidableEq, Repr

/-- JSON insignificant whitespace. -/
def isJsonWs (c : Char) : Bool :=
  c == ' ' || c == '\t' || c == '\n' || c == '\r'

/-- Single-character JSON string escapes (the `\uXXXX` form is outside the
modelled fragment and makes the decoder fail, sending the parser to its
comma-split fallback). -/
def unescapeChar (c : Char) : Option Char :=
  if c = '"' then some '"'
  else if c = '\\' then some '\\'
  else if c = '/' then some '/'
  else if c = 'n' then some '\n'
  else if c = 't' then some '\t'
  else if c = 'r' then some '\r'
  else if c = 'b' then some (Char.ofNat 8)
  else if c = 'f' then some (Char.ofNat 12)
  else none

/-- Scan a JSON string body after its opening quote, returning the decoded
content and the remainder after the closing quote. -/
def scanJStr (fuel : Nat) (cs : List Char) : Option (List Char × List Char) :=
  match fuel, cs with
  | 0, _ => none
  | _, [] => none
  | fuel + 1, c :: cs =>
    if c = '"' then some ([], cs)
    else if c = '\\' then
      match cs with
      | [] => none
      | e :: cs' =>
        match unescapeChar e with
        | some d => (scanJStr fuel cs').map (fun p => (d :: p.1, p.2))
        | none => none
    else (scanJStr fuel cs).map (fun p => (c :: p.1, p.2))

/-- Fractional part of the JSON number grammar. -/
def chompFrac : List Char → Option (List Char)
  | '.' :: r =>
    match r.span Char.isDigit with
    | (fr, r2) => if fr.isEmpty then none else some r2
  | cs => some cs

/-- Exponent part of the JSON number grammar. -/
def chompExp : List Char → Option (List Char)
  | [] => some []
  | c :: r =>
    if c = 'e' || c = 'E' then
      let r2 := match r with
        | '+' :: r' => r'
        | '-' :: r' => r'
        | _ => r
      match r2.span Char.isDigit with
      | (ds, r3) => if ds.isEmpty then none else some r3
    else some (c :: r)

/-- Validity under the JSON number grammar
`-?(0|[1-9][0-9]*)(\.[0-9]+)?([eE][+-]?[0-9]+)?`. -/
def isJsonNumber (cs0 : List Char) : Bool :=
  let cs := match cs0 with
    | '-' :: rest => rest
    | _ => cs0
  match cs with
  | [] => false
  | c :: rest =>
    if c.isDigit then
      match rest.span Char.isDigit with
      | (moreInt, after) =>
        if c = '0' && !moreInt.isEmpty then false
        else
          match chompFrac after with
          | none => false
          | some a2 =>
            match chompExp a2 with
            | none => false
            | some a3 => a3.isEmpty
    else false

/-- Non-string JSON scalars accepted by `json.loads`. -/
def isJsonAtom (cs : List Char) : Bool :=
  cs == "true".data || cs == "false".data || cs == "null".data || isJsonNumber cs

/-- Characters ending an unquoted JSON token. -/
def atomBreak (c : Char) : Bool :=
  isJsonWs c || c == ',' || c == ']' || c == '[' || c == '"'

/-- Parse one JSON value at the head of the input, returning it with the
remainder; fails exactly where `json.loads` would reject the token. -/
def parseJVal (cs : List Char) : Option (JVal × List Char) :=
  match cs with
  | '"' :: rest => (scanJStr (rest.length + 1) rest).map (fun p => (JVal.jstr (String.mk p.1), p.2))
  | _ =>
    match cs.span (fun c => !atomBreak c) with
    | (atom, rest) =>
      if atom.isEmpty then none
      else if isJsonAtom atom then some (JVal.jother (String.mk atom), rest)
      else none

/-- Parse `, value` continuations until the input is exhausted. -/
def parseMoreVals (fuel : Nat) (cs : List Char) (acc : List JVal) : Option (List JVal) :=
  match fuel with
  | 0 => none
  | fuel + 1 =>
    match cs.dropWhile isJsonWs with
    | [] => some acc.reverse
    | ',' :: rest =>
      match parseJVal (rest.dropWhile isJsonWs) with
      | some (v, r2) => parseMoreVals fuel r2 (v :: acc)
      | none => none
    | _ => none

/-- Parse the comma-separated items between the array brackets. -/
def parseArrInner (cs : List Char) : Option (List JVal) :=
  match cs.dropWhile isJsonWs with
  | [] => some []
  | cs' =>
    match parseJVal cs' with
    | some (v, rest) => parseMoreVals (rest.length + 1) rest [v]
    | none => none

/-- Model of `json.loads` on the bracketed segment extracted by the regex: a
JSON array of scalars (strings, numbers, literals).  The segment contains no
interior `']'` by construction, so nested arrays or objects make the decoder
fail, exactly where `json.loads` rejects the truncated text. -/
def decodeJsonArray (s : String) : Option (List JVal) :=
  match s.data with
  | '[' :: rest =>
    match rest.reverse with
    | ']' :: innerRev => parseArrInner innerRev.reverse
    | _ => none
  | _ => none

/-- Python `s.split(',')` at character level (splitting on a comma always
yields at least one, possibly empty, token). -/
def splitOnComma (cs : List Char) : List (List Char) :=
  cs.foldr
    (fun c acc =>
      if c = ',' then [] :: acc
      else match acc with
        | g :: gs => (c :: g) :: gs
        | [] => [[c]])
    [[]]

/-- Comma-split fallback of `_parse_keywords_from_response`: drop quote and
bracket characters (`.replace('"','').replace('[','').replace(']','')` are
single-character deletions), split on commas, keep stripped tokens longer
than 2 characters, cap at 10. -/
def fallbackSplitKeywords (response : String) : List String :=
  let cleaned := response.data.filter (fun c => !(c == '"' || c == '[' || c == ']'))
  ((splitOnComma cleaned).filterMap (fun w =>
    let t := pyStrip (String.mk w)
    if t ≠ "" ∧ t.length > 2 then some t else none)).take 10

/-- `KeywordExtractor._parse_keywords_from_response(response)` (duplicated as
`AITrendResearcher._parse_keywords_from_response`): locate the first
bracketed segment, JSON-decode it and keep the stripped non-empty strings;
on any failure fall back to comma splitting. -/
def parseKeywordsFromResponse (response : String) : List String :=
  match firstBracketSeg response with
  | some seg =>
    match decodeJsonArray seg with
    | some vals =>
      vals.filterMap (fun v =>
        match v with
        | JVal.jstr s => if pyStrip s = "" then none else some (pyStrip s)
        | JVal.jother _ => none)
    | none => fallbackSplitKeywords response
  | none => fallbackSplitKeywords response

/-- One raw result item as consumed by keyword extraction: the `.get` calls
read `title`, `description` and `snippet`, each possibly absent. -/
structure RItem where
  title : Option String
  description : Option String
  snippet : Option String
deriving DecidableEq, Repr

/-- One Research Result as consumed by keyword extraction (`platform`,
`keyword` and the item list; the remaining fields are not read). -/
structure RData where
  platform : String
  keyword : String
  results : List RItem
deriving DecidableEq, Repr

/-- Entry of the content summary sent to the completion service. -/
structure ContentItem where
  platform : String
  keyword : String
  title : String
  description : String
deriving DecidableEq, Repr

/-- Digest preparation of `KeywordExtractor._prepare_content_for_analysis`:
at most 3 items per entry with truthy results, descriptions truncated to 200
characters (`description` falling back to `snippet`, then `""`). -/
def prepareContent (research_data : List RData) : List ContentItem :=
  research_data.foldr
    (fun d acc =>
      (if d.results.isEmpty then []
       else (d.results.take 3).map (fun r =>
         { platform := d.platform, keyword := d.keyword,
           title := r.title.getD "",
           description := (r.description.getD (r.snippet.getD "")).take 200 })) ++ acc)
    []

/-- `KeywordExtractor.extract_keywords(research_data)` (duplicated as
`AITrendResearcher.extract_new_keywords`).  The completion call is the
`oracle` argument (consuming the content summary the prompt is built from;
`Except.error` models the call raising), `hasClient` is the truthiness of
the Claude client, and the surrounding `try/except` returns `[]` on oracle
failure.  Totality of this definition is the "never raises" boundary. -/
def extractKeywords (oracle : List ContentItem → Except String String)
    (hasClient : Bool) (research_data : List RData) : List String :=
  if research_data.isEmpty || !hasClient then []
  else if (prepareContent research_data).isEmpty then []
  else
    match oracle (prepareContent research_data) with
    | .error _ => []
    | .ok response => parseKeywordsFromResponse response

/-- Research data whose single entry has an empty result list, so the
prepared digest is empty. -/
def demoEmptyData : List RData :=
  [{ platform := "web", keyword := "AI", results := [] }]

/-- Research data with one populated entry. -/
def demoFullData : List RData :=
  [{ platform := "web", keyword := "AI",
     results := [{ title := some "AI news", description := none, snippet := some "daily" }] }]

/-- Completion-service oracle that always fails. -/
def demoFailOracle : List ContentItem → Except String String :=
  fun _ => .error "timeout"

/-- Shape of an MCP tool response: `call_tool` probes a `content` attribute,
then a `result` attribute, else returns the response itself. -/
inductive ToolResponse (ρ : Type) where
  | withContent (payload : ρ)
  | withResult (payload : ρ)
  | plain (payload : ρ)
deriving DecidableEq, Repr

/-- Value `call_tool` hands back for each response shape. -/
def ToolResponse.payload {ρ : Type} : ToolResponse ρ → ρ
  | .withContent p => p
  | .withResult p => p
  | .plain p => p

/-- State and transport of one `RemoteMCPClient`: `hasSession` and
`connected` mirror `self.session is not None` and `self._connected`;
`invoke` is the underlying `self.session.call_tool` keyed by tool name
(the argument mapping is elided — nothing modelled here inspects it), with
`Except.error` standing for the call raising. -/
structure MCPClient (ρ : Type) where
  hasSession : Bool
  connected : Bool
  invoke : String → Except String (ToolResponse ρ)

/-- `RemoteMCPClient.call_tool(tool_name, arguments)` (identical in
`mcp_client_manager.py` and `ai_trend_researcher.py`): raise
"Not connected to any server" unless a connected session exists; otherwise
return the probed payload — and when the underlying invocation raises, the
`except` branch logs the error and returns `None`. -/
def callTool {ρ : Type} (c : MCPClient ρ) (toolName : String) : Except String (Option ρ) :=
  if !c.hasSession || !c.connected then .error "Not connected to any server"
  else
    match c.invoke toolName with
    | .ok r => .ok (some r.payload)
    | .error _ => .ok none

/-- Research Result record as accumulated by `run_daily_research`.  `error`
is `none` both for a missing `error` key (processed and mock results) and a
null value; the constant fields (`timestamp`, `new_keywords`,
`sentiment_score`, `engagement_metrics`) are not read by the claims and are
omitted. -/
structure ResearchResult (ι : Type) where
  platform : String
  keyword : String
  results : List ι
  error : Option String
deriving DecidableEq, Repr

/-- Per-platform configuration and connection state of the orchestrator:
`enabled` is `mcp_servers[platform]["enabled"]` (`false` also covers a
platform missing from the configuration), `tools` the configured tool list
(`_research_via_mcp` indexes its first element), `client` the entry of
`self.mcp_clients` (`none` when connection failed), and `extract` abstracts
the platform-specific item normalization of `_process_mcp_response` on an
actual response payload. -/
structure PlatformSetup (ρ ι : Type) where
  enabled : Bool
  tools : List String
  client : Option (MCPClient ρ)
  extract : ρ → List ι

/-- Error dict built in the `except` branch of `_research_via_mcp`. -/
def errorResult {ι : Type} (p k e : String) : ResearchResult ι :=
  { platform := p, keyword := k, results := [], error := some e }

/-- `_process_mcp_response(platform, response, keyword)`: normalize the
response into an item list and wrap it; the returned dict carries no `error`
key.  A `None` response matches none of the shape probes, so every platform
branch then iterates an empty collection and the item list stays empty. -/
def processMCPResponse {ρ ι : Type} (extract : ρ → List ι) (p : String)
    (resp : Option ρ) (k : String) : ResearchResult ι :=
  { platform := p, keyword := k,
    results := match resp with
      | none => []
      | some r => extract r,
    error := none }

/-- `AITrendResearcher._research_via_mcp(platform, keyword)`: `None` when no
client is stored for the platform; otherwise call the first configured tool
inside `try` — any raise (an empty tool list, or `call_tool` raising when
the session is not connected) is caught and recorded as an error dict. -/
def researchViaMCP {ρ ι : Type} (s : PlatformSetup ρ ι) (p k : String) :
    Option (ResearchResult ι) :=
  match s.client with
  | none => none
  | some c =>
    match s.tools with
    | [] => some (errorResult p k "list index out of range")
    | tool :: _ =>
      match callTool c tool with
      | .error e => some (errorResult p k e)
      | .ok resp => some (processMCPResponse s.extract p resp k)

/-- Default mock dict of `research_platform` — note it has no `error` key. -/
def mockResult {ι : Type} (p k : String) : ResearchResult ι :=
  { platform := p, keyword := k, results := [], error := none }

/-- `AITrendResearcher.research_platform(platform, keyword)`: return the MCP
result when it exists and its `error` value is falsy, else the default mock
data. -/
def researchPlatform {ρ ι : Type} (setups : String → PlatformSetup ρ ι)
    (p k : String) : ResearchResult ι :=
  if (setups p).enabled then
    match researchViaMCP (setups p) p k with
    | some r => if optStrTruthy r.error then mockResult p k else r
    | none => mockResult p k
  else mockResult p k

/-- Research loop of `run_daily_research` (lines 816-824): for every active
keyword and every platform, append the pair's result.  `research_platform`
is total, so the surrounding `try/except` never skips an append. -/
def runResearchLoop {ρ ι : Type} (setups : String → PlatformSetup ρ ι)
    (activeKeywords platforms : List String) : List (ResearchResult ι) :=
  activeKeywords.foldr
    (fun k acc => platforms.map (fun p => researchPlatform setups p k) ++ acc) []

/-- Setup in which the platform is enabled but its connection failed
(`mcp_clients[platform] is None`). -/
def demoFailSetups : String → PlatformSetup String String :=
  fun _ => { enabled := true, tools := ["one_search"], client := none, extract := fun _ => [] }

/-- Setup in which a client is stored but its session is not connected, so
`call_tool` raises inside `_research_via_mcp` and an error dict is built. -/
def demoRaiseSetups : String → PlatformSetup String String :=
  fun _ =>
    { enabled := true, tools := ["one_search"],
      client := some
        { hasSession := false, connected := false,
          invoke := fun _ => .error "unused" },
      extract := fun _ => [] }

/-- Connected client whose underlying tool invocation raises. -/
def demoFailClient : MCPClient String :=
  { hasSession := true, connected := true,
    invoke := fun _ => .error "transport closed" }

/-- Client with no session (fresh or torn down). -/
def demoDisconnClient : MCPClient String :=
  { hasSession := false, connected := false,
    invoke := fun _ => .ok (ToolResponse.plain "ignored") }

/-- Inputs and collaborators of `NotionReportGenerator.create_notion_report`:
`hasClient` / `parentPageId` gate the early returns (`""` models a falsy
parent id), the two block builders are the computed values of
`_create_simple_notion_blocks` / `_create_notion_blocks` (both total — they
catch internal errors and fall back to a minimal block list), `validate` is
`_validate_blocks_structure`, `finalValidate` is `_final_validate_blocks`,
and `callTool` the outcome of the `create-page` MCP call (its payload,
including the 20-block truncation, is elided with the arguments). -/
structure NotionGen (β ρ : Type) where
  hasClient : Bool
  parentPageId : String
  simpleBlocks : List β
  detailedBlocks : List β
  validate : List β → Bool
  finalValidate : List β → List β
  callTool : Except String ρ

/-- `NotionReportGenerator.create_notion_report(report)`: guarded, validated,
and wrapped in `try/except` — every failure path, including the MCP call
raising, returns `None` instead of propagating. -/
def createNotionReport {β ρ : Type} (g : NotionGen β ρ) : Option ρ :=
  if !g.hasClient || g.parentPageId == "" then none
  else if g.simpleBlocks.isEmpty then none
  else
    match
      (if g.validate g.simpleBlocks then some g.simpleBlocks
       else if g.validate g.detailedBlocks then some g.detailedBlocks
       else none) with
    | none => none
    | some blocks =>
      if (g.finalValidate blocks).isEmpty then none
      else
        match g.callTool with
        | .error _ => none
        | .ok r => some r

/-- Collaborators of `SupabaseReportGenerator.create_supabase_report`: the
client gate and the outcome of the `execute_sql` MCP call (query text
elided with the arguments). -/
structure SupaGen (ρ : Type) where
  hasClient : Bool
  callTool : Except String ρ

/-- `SupabaseReportGenerator.create_supabase_report(report)`: skip without a
client; any raise inside the `try` — in particular a failing `execute_sql`
call — is caught and `None` returned. -/
def createSupabaseReport {ρ : Type} (g : SupaGen ρ) : Option ρ :=
  if !g.hasClient then none
  else
    match g.callTool with
    | .error _ => none
    | .ok r => some r

/-- Observable side effects of `ReportManager.generate_all_reports`, in
program order. -/
inductive SinkEvent where
  | jsonWritten (file : String)
  | notionAttempted (ok : Bool)
  | supabaseAttempted (ok : Bool)
deriving DecidableEq, Repr

/-- `ReportManager.generate_all_reports`: write the JSON report first
(`jsonWrite` is the outcome of `JSONReportGenerator.generate_report`, whose
failure propagates), then run each configured remote sink best-effort, and
return the JSON file path together with the ordered event trace. -/
def generateAllReports {β ρ : Type} (jsonWrite : Except String String)
    (notion : Option (NotionGen β ρ)) (supabase : Option (SupaGen ρ)) :
    Except String (String × List SinkEvent) :=
  match jsonWrite with
  | .error e => .error e
  | .ok report_file =>
    let evs := [SinkEvent.jsonWritten report_file]
    let evs := match notion with
      | some g => evs ++ [SinkEvent.notionAttempted (createNotionReport g).isSome]
      | none => evs
    let evs := match supabase with
      | some g => evs ++ [SinkEvent.supabaseAttempted (createSupabaseReport g).isSome]
      | none => evs
    .ok (report_file, evs)

/-- Notion sink whose `create-page` call fails. -/
def demoNotionGen : NotionGen String String :=
  { hasClient := true, parentPageId := "parent-1",
    simpleBlocks := ["summary block"], detailedBlocks := ["detail block"],
    validate := fun _ => true, finalValidate := fun bs => bs,
    callTool := .error "api down" }

/-- Supabase sink whose `execute_sql` call fails. -/
def demoSupaGen : SupaGen String :=
  { hasClient := true, callTool := .error "sql error" }

end AITrend

namespace AITrend

theorem dget_dset {V : Type} (d : List (String × V)) (k x : String) (v : V) :
    dget (dset d k v) x = if k = x then some v else dget d x := by
  induction d with
  | nil => simp [dget, dset]
  | cons p rest ih =>
    obtain ⟨k', v'⟩ := p
    by_cases hk : k' = k
    · subst hk
      by_cases hx : k' = x <;> simp [dget, dset, hx]
    · by_cases hx : k' = x
      · subst hx
        have : ¬ k = k' := fun h => hk h.symm
        simp [dget, dset, hk, this]
      · simp [dget, dset, hk, hx, ih]

theorem setLastUsed_idem (today t : String) (m : Registry) :
    setLastUsed today t (setLastUsed today t m) = setLastUsed today t m := by
  induction m with
  | nil => simp [setLastUsed]
  | cons p rest ih =>
    obtain ⟨k, r⟩ := p
    by_cases hk : k = t
    · simp [setLastUsed, hk]
    · simp [setLastUsed, hk, ih]

theorem setLastUsed_comm (today t u : String) (m : Registry) :
    setLastUsed today t (setLastUsed today u m) = setLastUsed today u (setLastUsed today t m) := by
  induction m with
  | nil => simp [setLastUsed]
  | cons p rest ih =>
    obtain ⟨k, r⟩ := p
    by_cases hu : k = u
    · subst hu
      by_cases ht : k = t
      · subst ht
        simp [setLastUsed]
      · simp [setLastUsed, ht]
    · by_cases ht : k = t
      · subst ht
        simp [setLastUsed, hu]
      · simp [setLastUsed, hu, ht, ih]

theorem markKeywordsUsed_cons (today t : String) (ts : List String) (m : Registry) :
    markKeywordsUsed today (t :: ts) m = markKeywordsUsed today ts (setLastUsed today t m) :=
  rfl

theorem markKeywordsUsed_setLastUsed (today t : String) (ts : List String) (m : Registry) :
    markKeywordsUsed today ts (setLastUsed today t m)
      = setLastUsed today t (markKeywordsUsed today ts m) := by
  induction ts generalizing m with
  | nil => simp [markKeywordsUsed]
  | cons u ts ih =>
    rw [markKeywordsUsed_cons today u ts (setLastUsed today t m),
      markKeywordsUsed_cons today u ts m, ← setLastUsed_comm today t u m, ih]

theorem markKeywordsUsed_idem (today : String) (ts : List String) (m : Registry) :
    markKeywordsUsed today ts (markKeywordsUsed today ts m) = markKeywordsUsed today ts m := by
  induction ts generalizing m with
  | nil => simp [markKeywordsUsed]
  | cons t ts ih =>
    rw [markKeywordsUsed_cons, markKeywordsUsed_cons,
      ← markKeywordsUsed_setLastUsed today t ts (setLastUsed today t m),
      setLastUsed_idem]
    exact ih (setLastUsed today t m)

theorem setLastUsed_absent (today t : String) (m : Registry) (h : dget m t = none) :
    setLastUsed today t m = m := by
  induction m with
  | nil => simp [setLastUsed]
  | cons p rest ih =>
    obtain ⟨k, r⟩ := p
    by_cases hk : k = t
    · simp [dget, hk] at h
    · simp [dget, hk] at h
      simp [setLastUsed, hk, ih h]

theorem mem_dset {V : Type} (d : List (String × V)) (k : String) (v : V)
    (p : String × V) (hp : p ∈ dset d k v) : p = (k, v) ∨ p ∈ d := by
  induction d with
  | nil => simpa [dset] using hp
  | cons q rest ih =>
    by_cases hk : q.1 = k
    · rw [show dset (q :: rest) k v = (k, v) :: rest by simp [dset, hk]] at hp
      rcases List.mem_cons.mp hp with h | h
      · exact Or.inl h
      · exact Or.inr (List.mem_cons_of_mem _ h)
    · rw [show dset (q :: rest) k v = q :: dset rest k v by simp [dset, hk]] at hp
      rcases List.mem_cons.mp hp with h | h
      · exact Or.inr (h ▸ List.mem_cons_self _ _)
      · rcases ih h with h' | h'
        · exact Or.inl h'
        · exact Or.inr (List.mem_cons_of_mem _ h')

theorem dget_foldl_dset (f : String → Int) (kws : List String)
    (acc : List (String × Int)) (x : String) :
    dget (kws.foldl (fun d k => dset d k (f k)) acc) x
      = if x ∈ kws then some (f x) else dget acc x := by
  induction kws generalizing acc with
  | nil => simp
  | cons k kws ih =>
    rw [List.foldl_cons, ih]
    by_cases hx : x ∈ kws
    · simp [hx, List.mem_cons]
    · by_cases hk : k = x
      · subst hk
        simp [hx, dget_dset]
      · have hxk : ¬ x = k := fun h => hk h.symm
        simp [hx, hk, dget_dset, List.mem_cons, hxk]

theorem mem_foldl_dset (f : String → Int) (kws : List String)
    (acc : List (String × Int)) (p : String × Int)
    (hp : p ∈ kws.foldl (fun d k => dset d k (f k)) acc) :
    p ∈ acc ∨ ∃ k, p.2 = f k := by
  induction kws generalizing acc with
  | nil => exact Or.inl hp
  | cons k kws ih =>
    rw [List.foldl_cons] at hp
    rcases ih (dset acc k (f k)) hp with h | h
    · rcases mem_dset acc k (f k) p h with h' | h'
      · exact Or.inr ⟨k, by rw [h']⟩
      · exact Or.inl h'
    · exact Or.inr h

theorem cappedScore_bounds (n : Nat) :
    0 ≤ min 100 (50 + 5 * (n : Int)) ∧ min 100 (50 + 5 * (n : Int)) ≤ 100 :=
  ⟨le_min (by norm_num) (by positivity), min_le_left _ _⟩

theorem mem_addNewKeyword (today : String) (m : Registry) (k : String) (sc : Int)
    (src : String) (df : Option String) (q : String × KeywordRecord)
    (hq : q ∈ (addNewKeyword today m k sc src df).2) : q ∈ m ∨ q.2.score = sc := by
  unfold addNewKeyword at hq
  cases hdg : dget m k with
  | some r => rw [hdg] at hq; exact Or.inl hq
  | none =>
    rw [hdg] at hq
    simp only [List.mem_append, List.mem_singleton] at hq
    rcases hq with h | h
    · exact Or.inl h
    · refine Or.inr ?_
      rw [h]
      by_cases hdf : optStrTruthy df = true <;> simp [hdf]

theorem mem_applyScoredKeywords (today : String) (scores : List (String × Int))
    (m : Registry) (q : String × KeywordRecord)
    (hq : q ∈ applyScoredKeywords today m scores) :
    q ∈ m ∨ ∃ p ∈ scores, q.2.score = p.2 := by
  induction scores generalizing m with
  | nil => exact Or.inl hq
  | cons p ps ih =>
    rw [show applyScoredKeywords today m (p :: ps)
        = applyScoredKeywords today
            (addNewKeyword today m p.1 p.2 "discovered" (some "daily_research")).2 ps from rfl] at hq
    rcases ih _ hq with h | h
    · rcases mem_addNewKeyword today m p.1 p.2 "discovered" (some "daily_research") q h with h' | h'
      · exact Or.inl h'
      · exact Or.inr ⟨p, List.mem_cons_self _ _, h'⟩
    · obtain ⟨p', hp', hsc⟩ := h
      exact Or.inr ⟨p', List.mem_cons_of_mem _ hp', hsc⟩

/-- C2 counterexample: the claim quantifies over `add_new_keyword` with any
integer score and `update_keyword_score` with any integer, but
`KeywordManager.update_keyword_score` stores the argument unclamped: updating
the score of `"ai"` to 150 leaves 150 in the registry, outside `[0,100]`. -/
theorem c2_update_unclamped_counterexample :
    (dget (updateKeywordScore demoReg "ai" 150).2 "ai").map KeywordRecord.score = some 150
      ∧ ¬ ((150 : Int) ≤ 100) := by
  constructor
  · decide
  · decide

/-- C2 (amended): scores computed by `score_keywords` always lie in [0,100]
(being `min(100, 50 + 5*n)`), and consequently the `score_keywords`-driven
update path of `run_daily_research` (feeding every scored keyword to
`add_new_keyword`) keeps every stored score within [0,100] whenever the
registry satisfied that bound before; direct `update_keyword_score` /
`add_new_keyword` calls with out-of-range integers are not clamped. -/
theorem c2_scoreKeywords_driven_scores_bounded (kws serials : List String)
    (today : String) (m : Registry) :
    (∀ p ∈ scoreKeywords kws serials, 0 ≤ p.2 ∧ p.2 ≤ 100)
      ∧ ((∀ q ∈ m, 0 ≤ q.2.score ∧ q.2.score ≤ 100) →
          ∀ q ∈ applyScoredKeywords today m (scoreKeywords kws serials),
            0 ≤ q.2.score ∧ q.2.score ≤ 100) := by
  have hscores : ∀ p ∈ scoreKeywords kws serials, 0 ≤ p.2 ∧ p.2 ≤ 100 := by
    intro p hp
    rcases mem_foldl_dset _ kws [] p hp with h | ⟨k, hk⟩
    · simp at h
    · rw [hk]
      exact cappedScore_bounds _
  refine ⟨hscores, fun hm q hq => ?_⟩
  rcases mem_applyScoredKeywords today _ m q hq with h | ⟨p, hp, hsc⟩
  · exact hm q h
  · rw [hsc]
    exact hscores p hp

/-- C2 witness: applying the theorem at a concrete registry and keyword list. -/
theorem c2_scoreKeywords_driven_scores_bounded_witness :
    ∀ q ∈ applyScoredKeywords "2026-10-12" demoReg
        (scoreKeywords ["agents"] ["platform: web, title: ai agents"]),
      0 ≤ q.2.score ∧ q.2.score ≤ 100 :=
  (c2_scoreKeywords_driven_scores_bounded ["agents"] ["platform: web, title: ai agents"]
    "2026-10-12" demoReg).2 (by decide)

/-- C4: `score_keywords` maps each requested keyword to
`min(100, 50 + 5*n)` where `n` counts the research entries whose
serialization contains the keyword as a case-insensitive substring. -/
theorem c4_scoreKeywords_formula (kws serials : List String) (k : String)
    (hk : k ∈ kws) :
    dget (scoreKeywords kws serials) k
      = some (min 100 (50 + 5 * (countMentions k serials : Int))) := by
  unfold scoreKeywords
  rw [dget_foldl_dset (fun k => min 100 (50 + 5 * (countMentions k serials : Int))) kws [] k]
  simp [hk]

/-- C4 witness, the spec's scenario: "GPT-5" occurs in exactly 3 of 4 entry
serializations, so its score is 50 + 3*5 = 65. -/
theorem c4_scoreKeywords_formula_witness :
    dget (scoreKeywords ["GPT-5"]
      ["platform: web, keyword: AI, title: GPT-5 rumors grow",
       "platform: youtube, keyword: AI, title: gpt-5 deep dive",
       "platform: web, keyword: agents, snippet: What GPT-5 means",
       "platform: web, keyword: agents, title: nothing here"]) "GPT-5" = some 65 := by
  rw [c4_scoreKeywords_formula ["GPT-5"] _ "GPT-5" (by decide)]
  decide

/-- C5: `add_new_keyword` on an already-present term returns `False` and
leaves the registry — and hence the existing record with all its fields, and
the persisted file content — exactly as it was. -/
theorem c5_addNewKeyword_existing_noop (today : String) (m : Registry) (k : String)
    (sc : Int) (src : String) (df : Option String) (hk : (dget m k).isSome = true) :
    addNewKeyword today m k sc src df = (false, m) := by
  obtain ⟨r, hr⟩ := Option.isSome_iff_exists.mp hk
  unfold addNewKeyword
  rw [hr]

/-- C5 witness: re-adding the present term `"ai"` changes nothing. -/
theorem c5_addNewKeyword_existing_noop_witness :
    (dget demoReg "ai").isSome = true
      ∧ addNewKeyword "2026-10-12" demoReg "ai" 99 "discovered" (some "daily_research")
          = (false, demoReg) :=
  ⟨by decide,
    c5_addNewKeyword_existing_noop "2026-10-12" demoReg "ai" 99 "discovered"
      (some "daily_research") (by decide)⟩

/-- C7: `extract_keywords` never raises (the embedding is a total function):
with an empty prepared digest it returns `[]` without consulting the
completion service (the result does not depend on the oracle), and a failing
completion call also yields `[]`. -/
theorem c7_extractKeywords_total_and_guarded
    (oracle : List ContentItem → Except String String) (hasClient : Bool)
    (research_data : List RData) :
    (prepareContent research_data = [] →
        extractKeywords oracle hasClient research_data = []
          ∧ ∀ oracle', extractKeywords oracle hasClient research_data
              = extractKeywords oracle' hasClient research_data)
      ∧ (∀ e, oracle (prepareContent research_data) = Except.error e →
          extractKeywords oracle hasClient research_data = []) := by
  constructor
  · intro hprep
    have hcs : (prepareContent research_data).isEmpty = true := by simp [hprep]
    constructor
    · by_cases h1 : research_data.isEmpty <;> by_cases h2 : hasClient <;>
        simp [extractKeywords, h1, h2, hcs]
    · intro oracle'
      by_cases h1 : research_data.isEmpty <;> by_cases h2 : hasClient <;>
        simp [extractKeywords, h1, h2, hcs]
  · intro e he
    by_cases h1 : research_data.isEmpty <;> by_cases h2 : hasClient <;>
      by_cases hcs : (prepareContent research_data).isEmpty <;>
        simp [extractKeywords, h1, h2, hcs, he]

/-- C7 witness: an entry with no results gives an empty digest and `[]`
whatever the oracle does, and a timing-out completion call gives `[]` on
populated data. -/
theorem c7_extractKeywords_total_and_guarded_witness :
    extractKeywords demoFailOracle true demoEmptyData = []
      ∧ extractKeywords demoFailOracle true demoFullData = [] :=
  ⟨((c7_extractKeywords_total_and_guarded demoFailOracle true demoEmptyData).1 (by decide)).1,
    (c7_extractKeywords_total_and_guarded demoFailOracle true demoFullData).2 "timeout" rfl⟩

/-- C10: on a reply whose first bracketed segment JSON-decodes to 11 strings,
`_parse_keywords_from_response` returns all 11 stripped non-empty strings —
more than 10, including 1-character entries — while the same parser caps a
comma-split fallback reply (12 plain tokens, no brackets) at 10: the cap and
length filter belong to the fallback path only. -/
theorem c10_parse_json_path_uncapped :
    parseKeywordsFromResponse "[\"a\",\"b\",\"c\",\"d\",\"e\",\"f\",\"g\",\"h\",\"i\",\"j\",\"k\"]"
        = ["a", "b", "c", "d", "e", "f", "g", "h", "i", "j", "k"]
      ∧ (parseKeywordsFromResponse
          "[\"a\",\"b\",\"c\",\"d\",\"e\",\"f\",\"g\",\"h\",\"i\",\"j\",\"k\"]").length > 10
      ∧ "a" ∈ parseKeywordsFromResponse
          "[\"a\",\"b\",\"c\",\"d\",\"e\",\"f\",\"g\",\"h\",\"i\",\"j\",\"k\"]"
      ∧ "a".length ≤ 2
      ∧ (parseKeywordsFromResponse
          "alpha, beta1, gamma, delta, epsil, zeta1, eta12, theta, iota1, kappa, lambda, mu123").length
          = 10 := by
  refine ⟨by decide, by decide, by decide, by decide, by decide⟩

/-- C6: `refresh_active_keywords(limit)` persists its result as the new
active set and returns at most `limit` terms, all present in the master
registry, listed in non-increasing score order (the sorted entry list is
`Sorted byScoreDesc` and the returned terms are its first `limit` keys), with
equal-score entries kept in registry iteration order (stability of the
sort). -/
theorem c6_refreshActive_top_by_score (st : StoreState) (limit : Nat) :
    (refreshActiveKeywords st limit).2.active = (refreshActiveKeywords st limit).1
      ∧ (refreshActiveKeywords st limit).1.length ≤ limit
      ∧ (∀ t ∈ (refreshActiveKeywords st limit).1, t ∈ st.master.map Prod.fst)
      ∧ List.Sorted byScoreDesc ((sortedByScoreDesc st.master).take limit)
      ∧ (refreshActiveKeywords st limit).1
          = ((sortedByScoreDesc st.master).take limit).map Prod.fst
      ∧ (∀ a b : String × KeywordRecord, a.2.score = b.2.score →
          List.Sublist [a, b] st.master → List.Sublist [a, b] (sortedByScoreDesc st.master)) := by
  refine ⟨rfl, ?_, ?_, ?_, rfl, ?_⟩
  · show (((sortedByScoreDesc st.master).take limit).map Prod.fst).length ≤ limit
    rw [List.length_map, List.length_take]
    exact min_le_left _ _
  · intro t ht
    obtain ⟨p, hp, hfst⟩ := List.mem_map.mp ht
    have hp' : p ∈ sortedByScoreDesc st.master := (List.take_sublist _ _).mem hp
    have hpm : p ∈ st.master := (List.mem_insertionSort byScoreDesc).mp hp'
    exact hfst ▸ List.mem_map_of_mem Prod.fst hpm
  · exact List.Pairwise.sublist (List.take_sublist _ _)
      (List.sorted_insertionSort byScoreDesc st.master)
  · intro a b hsc hab
    exact List.pair_sublist_insertionSort (le_of_eq hsc.symm) hab

/-- C6 witness: the theorem applied to `demoStore` with limit 2; the
membership and stability hypotheses are discharged on concrete entries. -/
theorem c6_refreshActive_top_by_score_witness :
    (refreshActiveKeywords demoStore 2).2.active = (refreshActiveKeywords demoStore 2).1
      ∧ (refreshActiveKeywords demoStore 2).1.length ≤ 2
      ∧ "rag" ∈ demoStore.master.map Prod.fst
      ∧ List.Sublist
          [("rag", { score := 70, last_used := none, source := "seed",
                     created_date := "2026-01-01", discovered_from := none }),
           ("llm", { score := 70, last_used := none, source := "seed",
                     created_date := "2026-01-01", discovered_from := none })]
          (sortedByScoreDesc demoStore.master) := by
  obtain ⟨h1, h2, h3, _, _, h6⟩ := c6_refreshActive_top_by_score demoStore 2
  exact ⟨h1, h2, h3 "rag" (by decide), h6 _ _ (by decide) (by decide)⟩

/-- C9: `mark_keywords_used` run twice with the same term list on the same
day equals one run (same `last_used` values and same registry state), and a
term absent from the registry leaves it untouched. -/
theorem c9_markKeywordsUsed_idempotent (today : String) (ts : List String) (m : Registry) :
    markKeywordsUsed today ts (markKeywordsUsed today ts m) = markKeywordsUsed today ts m
      ∧ (∀ t, dget m t = none → setLastUsed today t m = m) :=
  ⟨markKeywordsUsed_idem today ts m, fun t ht => setLastUsed_absent today t m ht⟩

/-- C9 witness: concrete double run over `demoReg`, and the unknown term
`"ml"` is a no-op. -/
theorem c9_markKeywordsUsed_idempotent_witness :
    markKeywordsUsed "2026-10-12" ["ai"] (markKeywordsUsed "2026-10-12" ["ai"] demoReg)
        = markKeywordsUsed "2026-10-12" ["ai"] demoReg
      ∧ setLastUsed "2026-10-12" "ml" demoReg = demoReg :=
  ⟨(c9_markKeywordsUsed_idempotent "2026-10-12" ["ai"] demoReg).1,
    (c9_markKeywordsUsed_idempotent "2026-10-12" ["ai"] demoReg).2 "ml" (by decide)⟩

theorem researchViaMCP_fields {ρ ι : Type} (s : PlatformSetup ρ ι) (p k : String)
    (r : ResearchResult ι) (h : researchViaMCP s p k = some r) :
    r.platform = p ∧ r.keyword = k := by
  unfold researchViaMCP at h
  split at h
  · cases h
  · split at h
    · cases h
      exact ⟨rfl, rfl⟩
    · split at h
      · cases h
        exact ⟨rfl, rfl⟩
      · cases h
        exact ⟨rfl, rfl⟩

theorem researchPlatform_fields {ρ ι : Type} (setups : String → PlatformSetup ρ ι)
    (p k : String) :
    (researchPlatform setups p k).platform = p
      ∧ (researchPlatform setups p k).keyword = k
      ∧ optStrTruthy (researchPlatform setups p k).error = false := by
  unfold researchPlatform
  split
  · split
    · split
      · exact ⟨rfl, rfl, rfl⟩
      · next r hres herr =>
        obtain ⟨h1, h2⟩ := researchViaMCP_fields (setups p) p k r hres
        simp only [Bool.not_eq_true] at herr
        exact ⟨h1, h2, herr⟩
    · exact ⟨rfl, rfl, rfl⟩
  · exact ⟨rfl, rfl, rfl⟩

/-- C1 (amended): every research cycle records exactly one Research Result
per (active keyword, enabled-or-not platform) pair, in loop order; but the
recorded result never carries a truthy `error` value — `research_platform`
replaces error-tagged MCP results by the default mock dict (empty results,
no `error` key), so a failed pair is recorded unpopulated and untagged
rather than error-tagged. -/
theorem c1_every_pair_recorded_untagged {ρ ι : Type}
    (setups : String → PlatformSetup ρ ι) (kws platforms : List String) :
    (runResearchLoop setups kws platforms).map
        (fun r => (r.keyword, r.platform, optStrTruthy r.error))
      = kws.foldr (fun k acc => platforms.map (fun p => (k, p, false)) ++ acc) [] := by
  induction kws with
  | nil => rfl
  | cons k kws ih =>
    unfold runResearchLoop at *
    rw [List.foldr_cons, List.foldr_cons, List.map_append, ih, List.map_map]
    congr 1
    apply List.map_congr_left
    intro p _
    obtain ⟨h1, h2, h3⟩ := researchPlatform_fields setups p k
    simp [Function.comp, h1, h2, h3]

/-- C1 counterexample: with platform `"web"` enabled but its connection
failed (`client = None`), and also with a stored-but-disconnected client
whose tool call raises into an error dict, the accumulated list records the
pair as the mock result — `results` empty and `error` absent — refuting
"either populated or carries a non-null error field". -/
theorem c1_failed_pair_untagged_counterexample :
    runResearchLoop demoFailSetups ["AI"] ["web"]
        = [{ platform := "web", keyword := "AI", results := ([] : List String), error := none }]
      ∧ runResearchLoop demoRaiseSetups ["AI"] ["web"]
        = [{ platform := "web", keyword := "AI", results := ([] : List String), error := none }] :=
  ⟨rfl, rfl⟩

/-- C3 (amended): `call_tool` outside the Connected state raises
"Not connected to any server"; but when the session is connected and the
underlying tool invocation fails, the exception is caught, logged, and
`None` is returned to the caller — no error is raised. -/
theorem c3_callTool_guard_and_swallow {ρ : Type} (c : MCPClient ρ) (tool : String) :
    (¬ (c.hasSession = true ∧ c.connected = true) →
        callTool c tool = Except.error "Not connected to any server")
      ∧ (∀ e, c.hasSession = true → c.connected = true →
          c.invoke tool = Except.error e → callTool c tool = Except.ok none) := by
  constructor
  · intro h
    unfold callTool
    cases hs : c.hasSession with
    | false => simp
    | true =>
      cases hcn : c.connected with
      | false => simp
      | true => exact absurd ⟨hs, hcn⟩ h
  · intro e hs hcn hinv
    unfold callTool
    simp [hs, hcn, hinv]

/-- C3 counterexample: a connected client whose underlying invocation raises
"transport closed" gets `Except.ok none` back from `call_tool` — the failure
is returned as a plain `None`, not surfaced as a raised error. -/
theorem c3_swallowed_failure_counterexample :
    callTool demoFailClient "one_search" = Except.ok none :=
  rfl

/-- C3 witness: the disconnected client raises the "not connected" message,
and the connected-but-failing client gets `None` back. -/
theorem c3_callTool_guard_and_swallow_witness :
    callTool demoDisconnClient "one_search" = Except.error "Not connected to any server"
      ∧ callTool demoFailClient "one_search" = Except.ok none :=
  ⟨(c3_callTool_guard_and_swallow demoDisconnClient "one_search").1
      (fun h => by cases h.1),
    (c3_callTool_guard_and_swallow demoFailClient "one_search").2
      "transport closed" rfl rfl rfl⟩

/-- C8: `generate_all_reports` writes the JSON report first and returns its
path whenever that write succeeds — the event trace starts with the JSON
write — while a failing Notion or Supabase call is swallowed inside the
respective generator (which returns `None` instead of raising), so remote
failures neither abort report generation nor undo the JSON write. -/
theorem c8_json_first_remote_swallowed {β ρ : Type} (jsonWrite : Except String String)
    (notion : Option (NotionGen β ρ)) (supabase : Option (SupaGen ρ)) :
    (∀ f, jsonWrite = Except.ok f →
        ∃ evs, generateAllReports jsonWrite notion supabase = Except.ok (f, evs)
          ∧ evs.head? = some (SinkEvent.jsonWritten f))
      ∧ (∀ g : NotionGen β ρ, ∀ e, g.callTool = Except.error e → createNotionReport g = none)
      ∧ (∀ g : SupaGen ρ, ∀ e, g.callTool = Except.error e → createSupabaseReport g = none) := by
  refine ⟨?_, ?_, ?_⟩
  · intro f hf
    subst hf
    cases notion <;> cases supabase <;> exact ⟨_, rfl, rfl⟩
  · intro g e he
    unfold createNotionReport
    rw [he]
    split
    · rfl
    · split
      · rfl
      · split
        · rfl
        · split <;> rfl
  · intro g e he
    unfold createSupabaseReport
    rw [he]
    split <;> rfl

/-- C8 witness: a successful JSON write followed by failing Notion and
Supabase sinks still yields the JSON path with the write first in the
trace, and both sinks return `None`. -/
theorem c8_json_first_remote_swallowed_witness :
    (∃ evs, generateAllReports (Except.ok "reports/ai_trends_2026-10-12.json")
          (some demoNotionGen) (some demoSupaGen)
        = Except.ok ("reports/ai_trends_2026-10-12.json", evs)
      ∧ evs.head? = some (SinkEvent.jsonWritten "reports/ai_trends_2026-10-12.json"))
      ∧ createNotionReport demoNotionGen = none
      ∧ createSupabaseReport demoSupaGen = none :=
  ⟨(c8_json_first_remote_swallowed (Except.ok "reports/ai_trends_2026-10-12.json")
      (some demoNotionGen) (some demoSupaGen)).1 "reports/ai_trends_2026-10-12.json" rfl,
    (c8_json_first_remote_swallowed (Except.ok "reports/ai_trends_2026-10-12.json")
      (some demoNotionGen) (some demoSupaGen)).2.1 demoNotionGen "api down" rfl,
    (c8_json_first_remote_swallowed (Except.ok "reports/ai_trends_2026-10-12.json")
      (some demoNotionGen) (some demoSupaGen)).2.2 demoSupaGen "sql error" rfl⟩

end AITrend
